import Mathlib

/-!
Shallow embedding of the `socket_server` repository (files
`socket_server/message.py`, `socket_server/server.py`,
`socket_server/client.py`) used to settle the frozen claims.

Bytes are modelled as `List Nat` (byte values), Python `str` as Lean
`String`, JSON values as the inductive `Json` below, Python exceptions as
the inductive `PyErr`, and fallible code as `Option`/`Except`.  Recursive
functions take explicit fuel so that every definition is executable and
reduces in the kernel.

Known narrowings of the model, stated once here: JSON numbers are modelled
as integers (the wire headers produced and consumed by the code only carry
integers; frames whose JSON uses fractions, exponents, NaN or Infinity are
simply outside the hypotheses of the universal theorems); `int()` parsing
and whitespace handling cover the ASCII forms (including the underscore
digit grouping rule), not the exotic Unicode digit classes; lone UTF-16
surrogates inside JSON string escapes are rejected.
-/

namespace SocketServer

/-- Python exception classes that the modelled code can raise. -/
inductive PyErr where
  | unicodeDecodeError
  | jsonDecodeError
  | typeError
  | keyError
  | assertionError
  | valueError
deriving DecidableEq, Repr

/-- Python slice `l[:i]` with a possibly negative index. -/
def pySliceTo (l : List Nat) (i : Int) : List Nat :=
  if 0 ≤ i then l.take i.toNat else l.take (l.length - i.natAbs)

/-- Python slice `l[i:]` with a possibly negative index. -/
def pySliceFrom (l : List Nat) (i : Int) : List Nat :=
  if 0 ≤ i then l.drop i.toNat else l.drop (l.length - i.natAbs)

/-- UTF-8 encoding of one character (code points are valid by `Char`). -/
def utf8EncodeChar (c : Char) : List Nat :=
  let n := c.toNat
  if n < 0x80 then [n]
  else if n < 0x800 then [0xC0 + n / 64, 0x80 + n % 64]
  else if n < 0x10000 then
    [0xE0 + n / 4096, 0x80 + (n / 64) % 64, 0x80 + n % 64]
  else
    [0xF0 + n / 262144, 0x80 + (n / 4096) % 64, 0x80 + (n / 64) % 64,
     0x80 + n % 64]

/-- UTF-8 encoding of a character list. -/
def utf8EncodeChars (cs : List Char) : List Nat :=
  cs.flatMap utf8EncodeChar

/-- `str.encode` on a Python string. -/
def utf8Encode (s : String) : List Nat :=
  utf8EncodeChars s.data

/-- Is `b` a UTF-8 continuation byte (`0x80..0xBF`)? -/
def isCont (b : Nat) : Bool :=
  0x80 ≤ b ∧ b ≤ 0xBF

/-- Strict UTF-8 decoding (as `bytes.decode` with default strict errors):
    rejects overlong forms, surrogates and truncated sequences.  Fuelled so
    that it reduces in the kernel. -/
def utf8DecodeAux : Nat → List Nat → Option (List Char)
  | _, [] => some []
  | 0, _ :: _ => none
  | fuel + 1, b :: rest =>
    if b < 0x80 then
      (utf8DecodeAux fuel rest).map (fun cs => Char.ofNat b :: cs)
    else if 0xC2 ≤ b ∧ b ≤ 0xDF then
      match rest with
      | b2 :: r2 =>
        if isCont b2 then
          (utf8DecodeAux fuel r2).map
            (fun cs => Char.ofNat ((b - 0xC0) * 64 + (b2 - 0x80)) :: cs)
        else none
      | _ => none
    else if 0xE0 ≤ b ∧ b ≤ 0xEF then
      match rest with
      | b2 :: b3 :: r3 =>
        let lo2 := if b = 0xE0 then 0xA0 else 0x80
        let hi2 := if b = 0xED then 0x9F else 0xBF
        if (lo2 ≤ b2 ∧ b2 ≤ hi2) ∧ isCont b3 then
          (utf8DecodeAux fuel r3).map
            (fun cs =>
              Char.ofNat ((b - 0xE0) * 4096 + (b2 - 0x80) * 64 + (b3 - 0x80)) :: cs)
        else none
      | _ => none
    else if 0xF0 ≤ b ∧ b ≤ 0xF4 then
      match rest with
      | b2 :: b3 :: b4 :: r4 =>
        let lo2 := if b = 0xF0 then 0x90 else 0x80
        let hi2 := if b = 0xF4 then 0x8F else 0xBF
        if (lo2 ≤ b2 ∧ b2 ≤ hi2) ∧ isCont b3 ∧ isCont b4 then
          (utf8DecodeAux fuel r4).map
            (fun cs =>
              Char.ofNat ((b - 0xF0) * 262144 + (b2 - 0x80) * 4096 +
                (b3 - 0x80) * 64 + (b4 - 0x80)) :: cs)
        else none
      | _ => none
    else none

/-- `bytes.decode` with strict errors: `some` of the characters, or `none`
    standing for a raised `UnicodeDecodeError`. -/
def utf8Decode (b : List Nat) : Option (List Char) :=
  utf8DecodeAux (b.length + 1) b

/-- JSON values, with integer numbers (see the file header note) and
    objects as key ordered association lists mirroring Python dicts. -/
inductive Json where
  | null
  | bool (b : Bool)
  | num (n : Int)
  | str (s : String)
  | arr (elems : List Json)
  | obj (fields : List (String × Json))

/-- Python `==` between a decoded JSON value and a string literal (used for
    the `content_type == 'text/plain'` comparisons): only equal strings
    compare equal. -/
def jsonEqStr (j : Json) (s : String) : Bool :=
  match j with
  | .str t => t = s
  | _ => false

/-- Python `==` between two hashable decoded JSON values as used for dict
    key lookup (`True == 1` holds in Python; strings only equal strings).
    Unhashable values never reach this comparison in the modelled code. -/
def jsonKeyEq : Json → Json → Bool
  | .null, .null => true
  | .bool a, .bool b => a = b
  | .bool a, .num n => (if a then (1 : Int) else 0) = n
  | .num n, .bool b => n = (if b then (1 : Int) else 0)
  | .num a, .num b => a = b
  | .str a, .str b => a = b
  | _, _ => false

/-- Python truthiness of a decoded JSON value. -/
def pyFalsy : Json → Bool
  | .null => true
  | .bool b => !b
  | .num n => n = 0
  | .str s => s = ""
  | .arr l => l.isEmpty
  | .obj l => l.isEmpty

/-- Python hashability of a decoded JSON value (`dict`/`list` are
    unhashable). -/
def pyHashable : Json → Bool
  | .arr _ => false
  | .obj _ => false
  | _ => true

/-- Decimal digit character. -/
def digitChar (n : Nat) : Char := Char.ofNat (48 + n)

/-- Decimal digits of a positive number, least significant first. -/
def natDigitsAux : Nat → Nat → List Char
  | 0, _ => []
  | fuel + 1, n => if n = 0 then [] else digitChar (n % 10) :: natDigitsAux fuel (n / 10)

/-- Decimal representation of a natural number, as `str` produces it. -/
def natToChars (n : Nat) : List Char :=
  if n = 0 then ['0'] else (natDigitsAux (n + 1) n).reverse

/-- Decimal representation of an integer, as `str` produces it. -/
def intToChars (i : Int) : List Char :=
  if i < 0 then '-' :: natToChars i.natAbs else natToChars i.natAbs

/-- Lowercase hex digit character. -/
def hexDigitChar (n : Nat) : Char :=
  if n < 10 then Char.ofNat (48 + n) else Char.ofNat (87 + n)

/-- Four lowercase hex digits, as in a JSON `\uXXXX` escape. -/
def hex4 (n : Nat) : List Char :=
  [hexDigitChar (n / 4096 % 16), hexDigitChar (n / 256 % 16),
   hexDigitChar (n / 16 % 16), hexDigitChar (n % 16)]

/-- Escaping of one character by `json.dumps` with its default
    `ensure_ascii=True`: printable ASCII kept, short escapes for the usual
    controls, `\uXXXX` otherwise (surrogate pairs above the BMP). -/
def jsonEscapeChar (c : Char) : List Char :=
  if c = '"' then ['\\', '"']
  else if c = '\\' then ['\\', '\\']
  else if c = '\n' then ['\\', 'n']
  else if c = '\r' then ['\\', 'r']
  else if c = '\t' then ['\\', 't']
  else if c.toNat = 8 then ['\\', 'b']
  else if c.toNat = 12 then ['\\', 'f']
  else if 0x20 ≤ c.toNat ∧ c.toNat ≤ 0x7E then [c]
  else if c.toNat < 0x10000 then '\\' :: 'u' :: hex4 c.toNat
  else
    let m := c.toNat - 0x10000
    ('\\' :: 'u' :: hex4 (0xD800 + m / 1024)) ++ ('\\' :: 'u' :: hex4 (0xDC00 + m % 1024))

/-- A JSON string literal as `json.dumps` writes it. -/
def jsonQuoteStr (s : String) : List Char :=
  '"' :: s.data.flatMap jsonEscapeChar ++ ['"']

mutual
/-- `json.dumps` with the default separators `", "` and `": "`. -/
def jsonDumps : Json → List Char
  | .null => "null".toList
  | .bool b => if b then "true".toList else "false".toList
  | .num n => intToChars n
  | .str s => jsonQuoteStr s
  | .arr l => '[' :: jsonDumpsElems l ++ [']']
  | .obj l => '{' :: jsonDumpsMembers l ++ ['}']

/-- Array elements joined by `", "`. -/
def jsonDumpsElems : List Json → List Char
  | [] => []
  | [x] => jsonDumps x
  | x :: y :: xs => jsonDumps x ++ ',' :: ' ' :: jsonDumpsElems (y :: xs)

/-- Object members joined by `", "`, each written `key: value`. -/
def jsonDumpsMembers : List (String × Json) → List Char
  | [] => []
  | [kv] => jsonQuoteStr kv.1 ++ ':' :: ' ' :: jsonDumps kv.2
  | kv :: kv2 :: rest =>
    (jsonQuoteStr kv.1 ++ ':' :: ' ' :: jsonDumps kv.2) ++
      ',' :: ' ' :: jsonDumpsMembers (kv2 :: rest)
end

/-- JSON whitespace accepted by `json.loads`. -/
def isJsonWs (c : Char) : Bool :=
  c = ' ' ∨ c = '\t' ∨ c = '\n' ∨ c = '\r'

/-- Drop leading JSON whitespace. -/
def skipWs : List Char → List Char
  | [] => []
  | c :: r => if isJsonWs c then skipWs r else c :: r

/-- Value of a hex digit character. -/
def hexVal (c : Char) : Option Nat :=
  if '0' ≤ c ∧ c ≤ '9' then some (c.toNat - 48)
  else if 'a' ≤ c ∧ c ≤ 'f' then some (c.toNat - 87)
  else if 'A' ≤ c ∧ c ≤ 'F' then some (c.toNat - 55)
  else none

/-- Four hex digits of a `\uXXXX` escape. -/
def parseHex4 : List Char → Option (Nat × List Char)
  | a :: b :: c :: d :: r =>
    match hexVal a, hexVal b, hexVal c, hexVal d with
    | some x, some y, some z, some w => some (x * 4096 + y * 256 + z * 16 + w, r)
    | _, _, _, _ => none
  | _ => none

/-- Prepend a character to the first component of a string-body result. -/
def consFirst (c : Char) (o : Option (List Char × List Char)) :
    Option (List Char × List Char) :=
  o.map (fun p => (c :: p.1, p.2))

/-- Body of a JSON string literal after the opening quote, as `json.loads`
    scans it: strict about unescaped control characters, combining
    surrogate pairs in `\u` escapes (lone surrogates rejected, a
    narrowing noted in the file header). -/
def jsonStringBody : Nat → List Char → Option (List Char × List Char)
  | 0, _ => none
  | _ + 1, [] => none
  | fuel + 1, c :: r =>
    if c = '"' then some ([], r)
    else if c = '\\' then
      match r with
      | [] => none
      | e :: r2 =>
        if e = '"' then consFirst '"' (jsonStringBody fuel r2)
        else if e = '\\' then consFirst '\\' (jsonStringBody fuel r2)
        else if e = '/' then consFirst '/' (jsonStringBody fuel r2)
        else if e = 'b' then consFirst (Char.ofNat 8) (jsonStringBody fuel r2)
        else if e = 'f' then consFirst (Char.ofNat 12) (jsonStringBody fuel r2)
        else if e = 'n' then consFirst '\n' (jsonStringBody fuel r2)
        else if e = 'r' then consFirst '\r' (jsonStringBody fuel r2)
        else if e = 't' then consFirst '\t' (jsonStringBody fuel r2)
        else if e = 'u' then
          match parseHex4 r2 with
          | none => none
          | some (n, r3) =>
            if 0xD800 ≤ n ∧ n ≤ 0xDBFF then
              match r3 with
              | '\\' :: 'u' :: r4 =>
                match parseHex4 r4 with
                | some (m, r5) =>
                  if 0xDC00 ≤ m ∧ m ≤ 0xDFFF then
                    consFirst (Char.ofNat (0x10000 + (n - 0xD800) * 1024 + (m - 0xDC00)))
                      (jsonStringBody fuel r5)
                  else none
                | none => none
              | _ => none
            else if 0xDC00 ≤ n ∧ n ≤ 0xDFFF then none
            else consFirst (Char.ofNat n) (jsonStringBody fuel r3)
        else none
    else if c.toNat < 0x20 then none
    else consFirst c (jsonStringBody fuel r)

/-- Leading run of decimal digits. -/
def spanDigits : List Char → List Char × List Char
  | [] => ([], [])
  | c :: r =>
    if c.isDigit then
      let p := spanDigits r
      (c :: p.1, p.2)
    else ([], c :: r)

/-- Accumulate decimal digits into a number. -/
def digitsToNat (acc : Nat) : List Char → Nat
  | [] => acc
  | c :: r => digitsToNat (acc * 10 + (c.toNat - 48)) r

/-- A JSON number as `json.loads` accepts it, restricted to integers: an
    optional minus sign and digits without a redundant leading zero.  A
    following fraction or exponent makes the model fail where Python
    would produce a float (narrowing noted in the file header). -/
def jsonNumber (cs : List Char) : Option (Json × List Char) :=
  let signed := match cs with
    | '-' :: r => (true, r)
    | _ => (false, cs)
  let mkNum : Nat → Json := fun n =>
    .num (if signed.1 then -(n : Int) else (n : Int))
  let noFloat : List Char → Bool := fun rest =>
    match rest with
    | c :: _ => !(c = '.' ∨ c = 'e' ∨ c = 'E')
    | [] => true
  match signed.2 with
  | [] => none
  | c :: r =>
    if c = '0' then
      match r with
      | d :: _ => if d.isDigit then none else if noFloat r then some (mkNum 0, r) else none
      | [] => some (mkNum 0, [])
    else if c.isDigit then
      let p := spanDigits r
      if noFloat p.2 then some (mkNum (digitsToNat (c.toNat - 48) p.1), p.2) else none
    else none

/-- Python dict assignment `d[k] = v`: replace in place or append. -/
def pyDictInsert : List (String × Json) → String → Json → List (String × Json)
  | [], k, v => [(k, v)]
  | kv :: rest, k, v =>
    if kv.1 = k then (kv.1, v) :: rest else kv :: pyDictInsert rest k v

/-- Members of a JSON object after the opening brace (first member must be
    present), parameterised by the value scanner to break the mutual
    recursion. -/
def jsonMembersAux (valP : List Char → Option (Json × List Char)) :
    Nat → List Char → List (String × Json) → Option (Json × List Char)
  | 0, _, _ => none
  | fuel + 1, cs, acc =>
    match skipWs cs with
    | '"' :: r =>
      match jsonStringBody (r.length + 1) r with
      | none => none
      | some (kcs, r2) =>
        match skipWs r2 with
        | ':' :: r3 =>
          match valP r3 with
          | none => none
          | some (v, r4) =>
            let acc2 := pyDictInsert acc (String.mk kcs) v
            match skipWs r4 with
            | ',' :: r5 => jsonMembersAux valP fuel r5 acc2
            | '}' :: r5 => some (.obj acc2, r5)
            | _ => none
        | _ => none
    | _ => none

/-- Elements of a JSON array after the opening bracket (first element must
    be present), parameterised by the value scanner. -/
def jsonElemsAux (valP : List Char → Option (Json × List Char)) :
    Nat → List Char → List Json → Option (Json × List Char)
  | 0, _, _ => none
  | fuel + 1, cs, acc =>
    match valP cs with
    | none => none
    | some (v, r) =>
      match skipWs r with
      | ',' :: r2 => jsonElemsAux valP fuel r2 (acc ++ [v])
      | ']' :: r2 => some (.arr (acc ++ [v]), r2)
      | _ => none

/-- One JSON value as `json.loads` scans it, fuelled on nesting depth. -/
def jsonParseVal : Nat → List Char → Option (Json × List Char)
  | 0, _ => none
  | fuel + 1, cs =>
    match skipWs cs with
    | [] => none
    | c :: r =>
      if c = '{' then
        match skipWs r with
        | '}' :: r2 => some (.obj [], r2)
        | _ => jsonMembersAux (jsonParseVal fuel) (r.length + 1) r []
      else if c = '[' then
        match skipWs r with
        | ']' :: r2 => some (.arr [], r2)
        | _ => jsonElemsAux (jsonParseVal fuel) (r.length + 1) r []
      else if c = '"' then
        (jsonStringBody (r.length + 1) r).map (fun p => (.str (String.mk p.1), p.2))
      else if c = 't' then
        match r with
        | 'r' :: 'u' :: 'e' :: r2 => some (.bool true, r2)
        | _ => none
      else if c = 'f' then
        match r with
        | 'a' :: 'l' :: 's' :: 'e' :: r2 => some (.bool false, r2)
        | _ => none
      else if c = 'n' then
        match r with
        | 'u' :: 'l' :: 'l' :: r2 => some (.null, r2)
        | _ => none
      else jsonNumber (c :: r)

/-- `json.loads` on a character list: one value, then only whitespace. -/
def jsonLoadsChars (cs : List Char) : Option Json :=
  match jsonParseVal (cs.length + 1) cs with
  | some (v, rest) => if (skipWs rest).isEmpty then some v else none
  | none => none

/-- `Message.decode_dict`: UTF-8 decode then `json.loads`; a `none` from
    either stage stands for the corresponding raised exception. -/
def decodeDict (b : List Nat) : Except PyErr Json :=
  match utf8Decode b with
  | none => .error .unicodeDecodeError
  | some cs =>
    match jsonLoadsChars cs with
    | none => .error .jsonDecodeError
    | some j => .ok j

/-- Python `str.isspace` characters relevant to `int()` (ASCII forms). -/
def pyIsSpace (c : Char) : Bool :=
  c = ' ' ∨ c = '\t' ∨ c = '\n' ∨ c = '\r' ∨ c.toNat = 11 ∨ c.toNat = 12

/-- Digits with Python underscore grouping (an underscore must sit between
    two digits). -/
def pyIntDigits (acc : Nat) : List Char → Option Nat
  | [] => some acc
  | '_' :: c :: r =>
    if c.isDigit then pyIntDigits (acc * 10 + (c.toNat - 48)) r else none
  | '_' :: [] => none
  | c :: r =>
    if c.isDigit then pyIntDigits (acc * 10 + (c.toNat - 48)) r else none

/-- Python `int(str)` on ASCII input: optional surrounding whitespace,
    optional sign, digits with underscore grouping.  `none` stands for a
    raised `ValueError`. -/
def pyIntOfChars (cs : List Char) : Option Int :=
  let t := (((cs.dropWhile pyIsSpace).reverse).dropWhile pyIsSpace).reverse
  match t with
  | '-' :: c :: r =>
    if c.isDigit then (pyIntDigits (c.toNat - 48) r).map (fun n => -(n : Int)) else none
  | '+' :: c :: r =>
    if c.isDigit then (pyIntDigits (c.toNat - 48) r).map (fun n => (n : Int)) else none
  | c :: r =>
    if c.isDigit then (pyIntDigits (c.toNat - 48) r).map (fun n => (n : Int)) else none
  | [] => none

/-- `int(b.decode('utf-8'))`: both failure modes are subclasses of
    `ValueError`, so a single `none` models the caught exception. -/
def pyIntOfBytes (b : List Nat) : Option Int :=
  (utf8Decode b).bind pyIntOfChars

/-- Key membership in a modelled dict. -/
def pyObjContains (k : String) (fields : List (String × Json)) : Bool :=
  fields.any (fun p => p.1 = k)

/-- Key lookup in a modelled dict. -/
def pyObjLookup (k : String) : List (String × Json) → Option Json
  | [] => none
  | kv :: rest => if kv.1 = k then some kv.2 else pyObjLookup k rest

/-- Boolean prefix test on character lists. -/
def listIsPrefixB : List Char → List Char → Bool
  | [], _ => true
  | a :: as, hay =>
    match hay with
    | [] => false
    | b :: brest => a = b && listIsPrefixB as brest

/-- Boolean substring test on character lists. -/
def listContainsSub : List Char → List Char → Bool
  | n, [] => listIsPrefixB n []
  | n, h :: hs => listIsPrefixB n (h :: hs) || listContainsSub n hs

/-- Python `k in j` for a string `k` and a decoded JSON value `j`: key
    membership for dicts, substring test for strings, element equality for
    lists, `TypeError` otherwise. -/
def pyContains (k : String) (j : Json) : Except PyErr Bool :=
  match j with
  | .obj l => .ok (pyObjContains k l)
  | .str s => .ok (listContainsSub k.data s.data)
  | .arr l => .ok (l.any (fun e => jsonEqStr e k))
  | _ => .error .typeError

/-- Python `j[k]` for a string key `k`: dict lookup (raising `KeyError`
    when absent), `TypeError` on any non-dict. -/
def pySubscript (j : Json) (k : String) : Except PyErr Json :=
  match j with
  | .obj l =>
    match pyObjLookup k l with
    | some v => .ok v
    | none => .error .keyError
  | _ => .error .typeError

/-- Python `n >= j` for an int `n` and a decoded JSON value `j` (bools act
    as 0/1, other types raise `TypeError`). -/
def pyGeNatJson (n : Nat) (j : Json) : Except PyErr Bool :=
  match j with
  | .num m => .ok ((n : Int) ≥ m)
  | .bool b => .ok ((n : Int) ≥ (if b then 1 else 0))
  | _ => .error .typeError

/-- A decoded JSON value used as a Python slice index (bools act as 0/1,
    other types raise `TypeError`). -/
def jsonToSliceIndex : Json → Except PyErr Int
  | .num n => .ok n
  | .bool b => .ok (if b then 1 else 0)
  | _ => .error .typeError

/-! ## The message classes (`socket_server/message.py`)

Runtime message objects.  `raw` is the generic `Message` (its
`content_type` is whatever object the header carried, its payload raw
bytes), `text` is `TextMessage` (payload a decoded string or `None`),
`close` is `CloseMessage`, `json` is `JSONMessage` (payload a decoded
JSON value or `None`), `event` is `EventMessage` (its internal dict holds
the two fixed keys with these two values). -/
inductive PyMsg where
  | raw (contentType : Json) (content : Option (List Nat))
  | text (msg : Option String)
  | close
  | json (msg : Option Json)
  | event (name : Json) (message : Json)

/-- `CloseMessage.CLOSE_CONTENT`. -/
def closeContent : String := "---CLOSE---"

/-- `isinstance(m, CloseMessage)` on a runtime message object. -/
def isCloseInstance : PyMsg → Bool
  | .close => true
  | _ => false

/-- `isinstance(m, TextMessage)` (`CloseMessage` is a subclass). -/
def isTextInstance : PyMsg → Bool
  | .text _ => true
  | .close => true
  | _ => false

/-- `isinstance(m, JSONMessage)` (`EventMessage` is a subclass). -/
def isJsonInstance : PyMsg → Bool
  | .json _ => true
  | .event _ _ => true
  | _ => false

/-- `isinstance(m, EventMessage)`. -/
def isEventInstance : PyMsg → Bool
  | .event _ _ => true
  | _ => false

/-- `EventMessage.event_name` (subscripts the internal two-key dict). -/
def eventNameOf : PyMsg → Json
  | .event n _ => n
  | _ => .null

/-- The `content-type` value the message writes into its header: the
    constructor-fixed tag for the typed classes, the stored object for the
    generic `Message`. -/
def msgContentType : PyMsg → Json
  | .raw ct _ => ct
  | .text _ => .str "text/plain"
  | .close => .str "text/plain"
  | .json _ => .str "application/json"
  | .event _ _ => .str "application/json"

/-- `Message.encode_text`: `None` for a falsy string, else the UTF-8
    bytes. -/
def encodeText (t : Option String) : Option (List Nat) :=
  match t with
  | none => none
  | some s => if s = "" then none else some (utf8Encode s)

/-- `Message.encode_dict`: `None` for a falsy value, else the UTF-8 bytes
    of `json.dumps`. -/
def encodeDictPy (v : Option Json) : Option (List Nat) :=
  match v with
  | none => none
  | some j => if pyFalsy j then none else some (utf8EncodeChars (jsonDumps j))

/-- The `encoded_message` property of each class: raw stored bytes for the
    generic `Message`, `encode_text` for `TextMessage`/`CloseMessage`,
    `encode_dict` for `JSONMessage`/`EventMessage`. -/
def encodedMessage : PyMsg → Option (List Nat)
  | .raw _ c => c
  | .text t => encodeText t
  | .close => encodeText (some closeContent)
  | .json v => encodeDictPy v
  | .event n m => encodeDictPy (some (.obj [("event_name", n), ("event_message", m)]))

/-- `encoded_message_length`: `None` when `encoded_message` is falsy. -/
def encodedMessageLength (m : PyMsg) : Option Nat :=
  match encodedMessage m with
  | none => none
  | some l => if l.isEmpty then none else some l.length

/-- The `header` property: content type plus `encoded_message_length or
    0`. -/
def msgHeader (m : PyMsg) : Json :=
  .obj [("content-type", msgContentType m),
        ("content-length", .num ((encodedMessageLength m).getD 0))]

/-- `encoded_header`: `json.dumps` of the header, UTF-8 encoded. -/
def encodedHeader (m : PyMsg) : List Nat :=
  utf8EncodeChars (jsonDumps (msgHeader m))

/-- `str(n).zfill(4)`: pad the decimal form to at least four characters. -/
def zfill4 (l : List Char) : List Char :=
  List.replicate (4 - l.length) '0' ++ l

/-- `Message._encode_header_length`: `None` for a falsy length, else the
    zero-padded 4-character decimal prefix, UTF-8 encoded. -/
def encodeHeaderLength (m : PyMsg) : Option (List Nat) :=
  let n := (encodedHeader m).length
  if n = 0 then none else some (utf8EncodeChars (zfill4 (natToChars n)))

/-- `Message.encode`: `None` (not ready) when the prefix, the header or
    the payload is falsy, else their concatenation. -/
def encodeMsg (m : PyMsg) : Option (List Nat) :=
  match encodeHeaderLength m, encodedMessage m with
  | some p, some c =>
    if p.isEmpty ∨ (encodedHeader m).isEmpty ∨ c.isEmpty then none
    else some (p ++ encodedHeader m ++ c)
  | _, _ => none

/-- The payload of the message is empty or absent (length 0), in the
    sense of claim C9: no stored value, or a stored value with length
    zero (`None` counts as absent). -/
def payloadEmptyOrAbsent : PyMsg → Bool
  | .raw _ none => true
  | .raw _ (some l) => l.isEmpty
  | .text none => true
  | .text (some s) => s = ""
  | .close => false
  | .json none => true
  | .json (some .null) => true
  | .json (some (.str s)) => s = ""
  | .json (some (.arr l)) => l.isEmpty
  | .json (some (.obj l)) => l.isEmpty
  | .json (some _) => false
  | .event _ _ => false

/-! ## The frame parser (`MessageParser`) -/

/-- Parser state: the byte buffer plus the two transient fields. -/
structure ParserState where
  data : List Nat
  currentHeaderLength : Option Int
  currentHeader : Option Json

/-- Python truthiness of `_current_header_length`. -/
def headerLengthTruthy : Option Int → Bool
  | none => false
  | some n => n ≠ 0

/-- Python truthiness of `_current_header`. -/
def headerTruthy : Option Json → Bool
  | none => false
  | some h => !pyFalsy h

/-- `MessageParser.received_data`: append non-empty data to the buffer. -/
def receivedData (s : ParserState) (d : List Nat) : ParserState :=
  if d.isEmpty then s else { s with data := s.data ++ d }

/-- `MessageParser._read_protocol_header`: with at least four buffered
    bytes, try `int` on the decoded prefix; on `ValueError` (which covers
    a UTF-8 failure) leave everything unchanged, otherwise record the
    header length and consume the four bytes. -/
def readProtocolHeader (s : ParserState) : ParserState :=
  if s.data.length < 4 then s
  else
    match pyIntOfBytes (s.data.take 4) with
    | none => s
    | some n => { data := s.data.drop 4, currentHeaderLength := some n,
                  currentHeader := s.currentHeader }

/-- `MessageParser._read_message_header`: nothing while the recorded
    length is falsy or the buffer is short; otherwise decode that many
    bytes as the JSON header.  The source has `except json.JSONDecoder:`,
    a class that is not an exception, so any decode failure escapes as a
    `TypeError` raised while matching the handler. -/
def readMessageHeader (s : ParserState) : Except PyErr ParserState :=
  match s.currentHeaderLength with
  | none => .ok s
  | some n =>
    if n = 0 then .ok s
    else if (s.data.length : Int) < n then .ok s
    else
      match decodeDict (pySliceTo s.data n) with
      | .ok h => .ok { data := pySliceFrom s.data n,
                       currentHeaderLength := some n, currentHeader := some h }
      | .error _ => .error .typeError

/-- `MessageParser._map_message_by_type`: select the runtime class from
    the header's `content-type` and decode the payload bytes accordingly.
    Note that the sentinel payload is never refined to `CloseMessage`. -/
def mapMessageByType (h : Json) (content : List Nat) : Except PyErr PyMsg :=
  if pyFalsy h then .error .assertionError
  else
    match pySubscript h "content-type" with
    | .error e => .error e
    | .ok ct =>
      if jsonEqStr ct "text/plain" then
        if content.isEmpty then .ok (.text none)
        else
          match utf8Decode content with
          | some cs => .ok (.text (some (String.mk cs)))
          | none => .error .unicodeDecodeError
      else if jsonEqStr ct "application/json" then
        match (if content.isEmpty then (.ok none : Except PyErr (Option Json))
               else
                 match decodeDict content with
                 | .ok j => .ok (some j)
                 | .error e => .error e) with
        | .error e => .error e
        | .ok none => .error .typeError
        | .ok (some j) =>
          match pyContains "event_name" j with
          | .error e => .error e
          | .ok false => .ok (.json (some j))
          | .ok true =>
            match pyContains "event_message" j with
            | .error e => .error e
            | .ok false => .ok (.json (some j))
            | .ok true =>
              match pySubscript j "event_name", pySubscript j "event_message" with
              | .error e, _ => .error e
              | .ok _, .error e => .error e
              | .ok n, .ok em => .ok (.event n em)
      else .ok (.raw ct (some content))

/-- `MessageParser._read_message_content`: nothing while the decoded
    header is falsy, a required key is missing, or fewer than
    `content-length` bytes are buffered; otherwise map the payload bytes
    to a message and consume them, clearing the transient state.  A
    `json.JSONDecodeError` from the mapping is caught and absorbed with
    the state untouched; any other exception propagates. -/
def readMessageContent (s : ParserState) : Except PyErr (ParserState × Option PyMsg) :=
  match s.currentHeader with
  | none => .ok (s, none)
  | some h =>
    if pyFalsy h then .ok (s, none)
    else
      match pyContains "content-type" h with
      | .error e => .error e
      | .ok false => .ok (s, none)
      | .ok true =>
        match pyContains "content-length" h with
        | .error e => .error e
        | .ok false => .ok (s, none)
        | .ok true =>
          match pySubscript h "content-length" with
          | .error e => .error e
          | .ok clJ =>
            match pyGeNatJson s.data.length clJ with
            | .error e => .error e
            | .ok false => .ok (s, none)
            | .ok true =>
              match jsonToSliceIndex clJ with
              | .error e => .error e
              | .ok mlen =>
                match mapMessageByType h (pySliceTo s.data mlen) with
                | .error .jsonDecodeError => .ok (s, none)
                | .error e => .error e
                | .ok m =>
                  .ok ({ data := pySliceFrom s.data mlen, currentHeaderLength := none,
                         currentHeader := none }, some m)

/-- One iteration of the `parse_messages` loop body: refresh the protocol
    header if its field is falsy, the message header if its field is
    falsy, then attempt the content. -/
def parseStep (s : ParserState) : Except PyErr (ParserState × Option PyMsg) :=
  let s1 := if ¬headerLengthTruthy s.currentHeaderLength then readProtocolHeader s else s
  match (if ¬headerTruthy s1.currentHeader then readMessageHeader s1 else .ok s1) with
  | .error e => .error e
  | .ok s2 => readMessageContent s2

/-- The `while data_available` loop: keep stepping while a message is
    produced, collecting the yielded messages. -/
def parseLoop : Nat → ParserState → List PyMsg × Except PyErr ParserState
  | 0, s => ([], .ok s)
  | fuel + 1, s =>
    match parseStep s with
    | .error e => ([], .error e)
    | .ok (s2, none) => ([], .ok s2)
    | .ok (s2, some m) =>
      let r := parseLoop fuel s2
      (m :: r.1, r.2)

/-- `MessageParser.parse_messages`: an immediate return on an empty
    buffer, else the loop.  The fuel exceeds what any loop run can use,
    since every iteration that continues consumes buffered bytes. -/
def parseMessages (s : ParserState) : List PyMsg × Except PyErr ParserState :=
  if s.data.isEmpty then ([], .ok s)
  else parseLoop (s.data.length + 2) s

/-- A fresh `MessageParser()`. -/
def initParser : ParserState := ⟨[], none, none⟩

/-- Feed the bytes one at a time with a full drain after each feed,
    collecting each drain's yielded messages (claim C3's scenario). -/
def feedByteDrains : List Nat → ParserState → List (List PyMsg) × Except PyErr ParserState
  | [], s => ([], .ok s)
  | b :: bs, s =>
    match parseMessages (receivedData s [b]) with
    | (ms, .ok s2) =>
      let r := feedByteDrains bs s2
      (ms :: r.1, r.2)
    | (ms, .error e) => ([ms], .error e)

/-! ## Connection handling (`socket_server/server.py`) -/

/-- The handler registry held by `SocketServer._handlers`: an optional
    text handler, an optional JSON handler, and the event-name dict.
    Handlers are identified by opaque numbers. -/
structure Handlers where
  textH : Option Nat
  jsonH : Option Nat
  eventH : List (Json × Nat)

/-- `message.event_name in self.handlers['event']`: hashing the name
    raises `TypeError` for an unhashable value, else Python `==` against
    the keys. -/
def pyEventDictContains (d : List (Json × Nat)) (k : Json) : Except PyErr Bool :=
  if pyHashable k then .ok (d.any (fun p => jsonKeyEq p.1 k)) else .error .typeError

/-- `self.handlers['event'][message.event_name]` once membership held. -/
def lookupEventHandler (d : List (Json × Nat)) (k : Json) : Option Nat :=
  match d with
  | [] => none
  | p :: rest => if jsonKeyEq p.1 k then some p.2 else lookupEventHandler rest k

/-- What the dispatch chain in `_SocketConnectionHandlerThread.run` does
    with one drained message. -/
inductive DispatchAction where
  | closeConn
  | invoke (handler : Nat)
  | drop

/-- The `if`/`elif` dispatch chain of the run loop, in source order:
    `CloseMessage` closes, an `EventMessage` with a registered event name
    invokes that handler, then the text handler, then the JSON handler,
    else the message is logged and dropped. -/
def dispatch (hs : Handlers) (m : PyMsg) : Except PyErr DispatchAction :=
  if isCloseInstance m then .ok .closeConn
  else
    match (if isEventInstance m then pyEventDictContains hs.eventH (eventNameOf m)
           else .ok false) with
    | .error e => .error e
    | .ok true => .ok (.invoke ((lookupEventHandler hs.eventH (eventNameOf m)).getD 0))
    | .ok false =>
      if isTextInstance m ∧ hs.textH.isSome then .ok (.invoke (hs.textH.getD 0))
      else if isJsonInstance m ∧ hs.jsonH.isSome then .ok (.invoke (hs.jsonH.getD 0))
      else .ok .drop

/-- A value returned or yielded by a user handler: either a `Message`
    instance or some other Python object (modelled as a JSON-like
    value). -/
inductive RVal where
  | msg (m : PyMsg)
  | val (j : Json)

/-- Python truthiness of a handler result (message objects are always
    truthy). -/
def rvalTruthy : RVal → Bool
  | .msg _ => true
  | .val j => !pyFalsy j

/-- `isinstance(result, CloseMessage)` on a raw handler result. -/
def rvalIsClose : RVal → Bool
  | .msg .close => true
  | _ => false

/-- Python `str()` of a non-`Message`, non-dict handler result, as
    `TextMessage(str(result))` uses it (container reprs approximated with
    their JSON form). -/
def pyStr : Json → String
  | .str s => s
  | .num n => String.mk (intToChars n)
  | .bool true => "True"
  | .bool false => "False"
  | .null => "None"
  | j => String.mk (jsonDumps j)

/-- `_SocketConnectionHandlerThread._map_result_to_message`: `None` for a
    falsy result, pass-through for `Message` instances, `JSONMessage` for
    dicts, else `TextMessage(str(result))`. -/
def mapResultToMessage (r : RVal) : Option PyMsg :=
  if ¬rvalTruthy r then none
  else
    match r with
    | .msg m => some m
    | .val j =>
      match j with
      | .obj _ => some (.json (some j))
      | _ => some (.text (some (pyStr j)))

/-- `_SocketConnectionHandlerThread.send`: a falsy message is a no-op;
    otherwise `sendall(message.encode())`, which raises `TypeError` when
    `encode()` returned `None`.  The result is the frame put on the
    socket, if any. -/
def sendMsg (om : Option PyMsg) : Except PyErr (Option (List Nat)) :=
  match om with
  | none => .ok none
  | some m =>
    match encodeMsg m with
    | some f => .ok (some f)
    | none => .error .typeError

/-- The frame `close()` sends as its courtesy notice:
    `CloseMessage().encode()`. -/
def courtesyCloseFrame : List Nat := (encodeMsg PyMsg.close).getD []

/-- Observable effect of a connection handler call: the frames written to
    the socket in order, and whether the connection was closed. -/
structure ConnEffects where
  sent : List (List Nat)
  closed : Bool

/-- `close(terminate)`: with `terminate=False` (the default used in
    `_handle_received_message`) it first best-effort sends a
    `CloseMessage`, then closes the socket. -/
def closeEffects (terminate : Bool) : ConnEffects :=
  if terminate then ⟨[], true⟩ else ⟨[courtesyCloseFrame], true⟩

/-- A handler's return value: `None`/falsy, a single value, or a
    generator yielding a sequence of values. -/
inductive HandlerResult where
  | single (v : RVal)
  | gen (vs : List RVal)

/-- The generator loop inside `_handle_received_message`: a
    `CloseMessage` value triggers `self.close()` (courtesy mode) and
    breaks; any other value is mapped and sent. -/
def processGen : List RVal → Except PyErr ConnEffects
  | [] => .ok ⟨[], false⟩
  | v :: rest =>
    if rvalIsClose v then .ok (closeEffects false)
    else
      match sendMsg (mapResultToMessage v) with
      | .error e => .error e
      | .ok of =>
        match processGen rest with
        | .error e => .error e
        | .ok eff =>
          .ok ⟨(match of with | some f => f :: eff.sent | none => eff.sent), eff.closed⟩

/-- `_SocketConnectionHandlerThread._handle_received_message` applied to
    the handler's result: falsy results do nothing; a generator is
    drained by `processGen`; a single `CloseMessage` triggers
    `self.close()` (courtesy mode); any other single value is mapped and
    sent. -/
def handleReceivedMessage : HandlerResult → Except PyErr ConnEffects
  | .gen vs => processGen vs
  | .single v =>
    if ¬rvalTruthy v then .ok ⟨[], false⟩
    else if rvalIsClose v then .ok (closeEffects false)
    else
      match sendMsg (mapResultToMessage v) with
      | .error e => .error e
      | .ok (some f) => .ok ⟨[f], false⟩
      | .ok none => .ok ⟨[], false⟩

/-! ## Basic lemmas about the parser state machine -/

theorem pySliceTo_coe (d : List Nat) (n : Nat) : pySliceTo d (n : Int) = d.take n := by
  simp [pySliceTo]

theorem pySliceFrom_coe (d : List Nat) (n : Nat) : pySliceFrom d (n : Int) = d.drop n := by
  simp [pySliceFrom]

theorem parseLoop_stall {s s2 : ParserState} (fuel : Nat)
    (h : parseStep s = .ok (s2, none)) : parseLoop (fuel + 1) s = ([], .ok s2) := by
  simp [parseLoop, h]

theorem parseLoop_err {s : ParserState} {e : PyErr} (fuel : Nat)
    (h : parseStep s = .error e) : parseLoop (fuel + 1) s = ([], .error e) := by
  simp [parseLoop, h]

theorem parseLoop_yield {s s2 : ParserState} {m : PyMsg} (fuel : Nat)
    (h : parseStep s = .ok (s2, some m)) :
    parseLoop (fuel + 1) s = (m :: (parseLoop fuel s2).1, (parseLoop fuel s2).2) := by
  simp [parseLoop, h]

theorem parseMessages_ne {s : ParserState} (h : s.data ≠ []) :
    parseMessages s = parseLoop (s.data.length + 2) s := by
  simp [parseMessages, List.isEmpty_iff, h]

theorem parseMessages_stall {s s2 : ParserState} (hne : s.data ≠ [])
    (h : parseStep s = .ok (s2, none)) : parseMessages s = ([], .ok s2) := by
  rw [parseMessages_ne hne]
  exact parseLoop_stall (s.data.length + 1) h

theorem parseMessages_err {s : ParserState} {e : PyErr} (hne : s.data ≠ [])
    (h : parseStep s = .error e) : parseMessages s = ([], .error e) := by
  rw [parseMessages_ne hne]
  exact parseLoop_err (s.data.length + 1) h

theorem parseMessages_yield₁ {s s1 s2 : ParserState} {m : PyMsg} (hne : s.data ≠ [])
    (h1 : parseStep s = .ok (s1, some m)) (h2 : parseStep s1 = .ok (s2, none)) :
    parseMessages s = ([m], .ok s2) := by
  rw [parseMessages_ne hne, parseLoop_yield (s.data.length + 1) h1,
    parseLoop_stall s.data.length h2]

theorem parseMessages_yield₂ {s s1 s2 s3 : ParserState} {m1 m2 : PyMsg} (hne : s.data ≠ [])
    (h1 : parseStep s = .ok (s1, some m1)) (h2 : parseStep s1 = .ok (s2, some m2))
    (h3 : parseStep s2 = .ok (s3, none)) : parseMessages s = ([m1, m2], .ok s3) := by
  obtain ⟨b, bs, hd⟩ : ∃ b bs, s.data = b :: bs := by
    cases hx : s.data with
    | nil => exact absurd hx hne
    | cons b bs => exact ⟨b, bs, rfl⟩
  have hlen : s.data.length + 2 = bs.length + 1 + 1 + 1 := by
    rw [hd]; simp only [List.length_cons]
  rw [parseMessages_ne hne, hlen, parseLoop_yield (bs.length + 1 + 1) h1,
    parseLoop_yield (bs.length + 1) h2, parseLoop_stall bs.length h3]

/-! ## Claim C10 -/

/-- Claim C10: `encode` produces "not ready" (no frame) for every falsy
    payload value: a `JSONMessage` whose payload is `0`, `False` or the
    empty object, and a `TextMessage` whose payload is the empty string,
    all fail to encode. -/
theorem falsy_payloads_do_not_encode :
    encodeMsg (PyMsg.json (some (Json.num 0))) = none ∧
    encodeMsg (PyMsg.json (some (Json.bool false))) = none ∧
    encodeMsg (PyMsg.json (some (Json.obj []))) = none ∧
    encodeMsg (PyMsg.text (some "")) = none :=
  ⟨rfl, rfl, rfl, rfl⟩

/-! ## Claims C1 and C2: the missing CloseMessage refinement -/

/-- Claim C1 (evaluation at the failing input): the encoded
    `CloseMessage()` frame is a `text/plain` frame whose payload is the
    sentinel, yet draining it from a fresh parser yields a plain
    `TextMessage` carrying the sentinel string — a value that the
    `isinstance(…, CloseMessage)` dispatch checks of the client and the
    connection handler do not recognize as a CloseMessage variant. -/
theorem close_frame_decodes_to_TextMessage :
    encodeMsg PyMsg.close = some courtesyCloseFrame ∧
    (parseMessages ⟨courtesyCloseFrame, none, none⟩).1 = [PyMsg.text (some closeContent)] ∧
    isCloseInstance (PyMsg.text (some closeContent)) = false :=
  ⟨rfl, rfl, rfl⟩

/-- Claim C2 (evaluation at the failing input): the round trip fails for
    the `CloseMessage` variant: feeding `encode(CloseMessage())` to a
    fresh parser and draining yields exactly one message, but that
    message is a `TextMessage`, not the `CloseMessage` that was
    encoded. -/
theorem close_roundtrip_loses_variant :
    encodeMsg PyMsg.close = some courtesyCloseFrame ∧
    parseMessages ⟨courtesyCloseFrame, none, none⟩ =
      ([PyMsg.text (some closeContent)], .ok initParser) ∧
    PyMsg.text (some closeContent) ≠ PyMsg.close :=
  ⟨rfl, rfl, fun h => PyMsg.noConfusion h⟩

/-! ## Claim C8: an unparsable length prefix stalls without consuming -/

theorem parseStep_stall_short {d : List Nat} (hd : d.length < 4) :
    parseStep ⟨d, none, none⟩ = .ok (⟨d, none, none⟩, none) := by
  simp [parseStep, headerLengthTruthy, readProtocolHeader, hd, headerTruthy,
    readMessageHeader, readMessageContent]

theorem parseStep_stall_badInt {d : List Nat} (h4 : ¬d.length < 4)
    (hbad : pyIntOfBytes (d.take 4) = none) :
    parseStep ⟨d, none, none⟩ = .ok (⟨d, none, none⟩, none) := by
  simp [parseStep, headerLengthTruthy, readProtocolHeader, h4, hbad, headerTruthy,
    readMessageHeader, readMessageContent]

/-- Claim C8: for every buffer whose first four bytes cannot be parsed as
    a decimal integer, a drain attempt yields no message, raises no
    error, and consumes no bytes: buffer and transient state are
    returned unchanged, so the parser stalls awaiting more bytes. -/
theorem unparsable_length_stalls (d : List Nat) (h4 : 4 ≤ d.length)
    (hbad : pyIntOfBytes (d.take 4) = none) :
    parseMessages ⟨d, none, none⟩ = ([], .ok ⟨d, none, none⟩) := by
  have hne : d ≠ [] := by rintro rfl; simp at h4
  exact parseMessages_stall hne (parseStep_stall_badInt (by omega) hbad)

/-- Witness for claim C8 at the concrete buffer `b"XXXX"`. -/
theorem unparsable_length_stalls_witness :
    pyIntOfBytes ([88, 88, 88, 88].take 4) = none ∧
    parseMessages ⟨[88, 88, 88, 88], none, none⟩ =
      ([], .ok ⟨[88, 88, 88, 88], none, none⟩) :=
  ⟨rfl, unparsable_length_stalls [88, 88, 88, 88] (by decide) rfl⟩

/-! ## Step lemmas for frames moving through the state machine -/

theorem length_coe_ne_zero {l : List Nat} (h : l ≠ []) : (l.length : Int) ≠ 0 := by
  have : l.length ≠ 0 := fun hq => h (List.length_eq_zero.mp hq)
  exact_mod_cast this

theorem headerLengthTruthy_of_ne {L : Int} (hL : L ≠ 0) :
    headerLengthTruthy (some L) = true := by
  simp [headerLengthTruthy, hL]

theorem parseStep_clean_eq {pb r : List Nat} {L : Int} (hp : pb.length = 4)
    (hpi : pyIntOfBytes pb = some L) (hL : L ≠ 0) :
    parseStep ⟨pb ++ r, none, none⟩ = parseStep ⟨r, some L, none⟩ := by
  have h4 : ¬(pb ++ r).length < 4 := by rw [List.length_append, hp]; omega
  have htake : (pb ++ r).take 4 = pb := by rw [← hp]; exact List.take_left pb r
  have hdrop : (pb ++ r).drop 4 = r := by rw [← hp]; exact List.drop_left pb r
  have hrp : readProtocolHeader ⟨pb ++ r, none, none⟩ = ⟨r, some L, none⟩ := by
    simp only [readProtocolHeader]
    rw [if_neg h4, htake, hpi, hdrop]
  simp [parseStep, headerLengthTruthy, headerTruthy, hrp, hL]

theorem parseStep_await_header {r : List Nat} {L : Int} (hL : L ≠ 0)
    (hr : (r.length : Int) < L) :
    parseStep ⟨r, some L, none⟩ = .ok (⟨r, some L, none⟩, none) := by
  have hmh : readMessageHeader ⟨r, some L, none⟩ = .ok ⟨r, some L, none⟩ := by
    simp [readMessageHeader, hL, hr]
  simp [parseStep, headerLengthTruthy_of_ne hL, headerTruthy, hmh, readMessageContent]

theorem parseStep_header_err {hb r : List Nat} {e : PyErr} (hhb : hb ≠ [])
    (hdec : decodeDict hb = .error e) :
    parseStep ⟨hb ++ r, some (hb.length : Int), none⟩ = .error .typeError := by
  have hL := length_coe_ne_zero hhb
  have hlen : ¬((hb ++ r).length : Int) < (hb.length : Int) := by
    rw [List.length_append]; push_cast; omega
  have hslice : pySliceTo (hb ++ r) (hb.length : Int) = hb := by
    rw [pySliceTo_coe]; exact List.take_left hb r
  have hmh : readMessageHeader ⟨hb ++ r, some (hb.length : Int), none⟩ =
      .error .typeError := by
    simp [readMessageHeader, hL, hlen, hslice, hdec]
  simp [parseStep, headerLengthTruthy_of_ne hL, headerTruthy, hmh]

theorem parseStep_header_read {hb r : List Nat} {h : Json} (hhb : hb ≠ [])
    (hdec : decodeDict hb = .ok h) :
    parseStep ⟨hb ++ r, some (hb.length : Int), none⟩ =
      readMessageContent ⟨r, some (hb.length : Int), some h⟩ := by
  have hL := length_coe_ne_zero hhb
  have hlen : ¬((hb ++ r).length : Int) < (hb.length : Int) := by
    rw [List.length_append]; push_cast; omega
  have hslice : pySliceTo (hb ++ r) (hb.length : Int) = hb := by
    rw [pySliceTo_coe]; exact List.take_left hb r
  have hsliceF : pySliceFrom (hb ++ r) (hb.length : Int) = r := by
    rw [pySliceFrom_coe]; exact List.drop_left hb r
  have hmh : readMessageHeader ⟨hb ++ r, some (hb.length : Int), none⟩ =
      .ok ⟨r, some (hb.length : Int), some h⟩ := by
    simp [readMessageHeader, hL, hlen, hslice, hsliceF, hdec]
  simp [parseStep, headerLengthTruthy_of_ne hL, headerTruthy, hmh]

theorem parseStep_have_header {r : List Nat} {L : Int} {h : Json} (hL : L ≠ 0)
    (hF : pyFalsy h = false) :
    parseStep ⟨r, some L, some h⟩ = readMessageContent ⟨r, some L, some h⟩ := by
  have h2 : headerTruthy (some h) = true := by simp [headerTruthy, hF]
  simp [parseStep, headerLengthTruthy_of_ne hL, h2]

theorem rmc_await {r : List Nat} {L N : Int} {h : Json}
    (hF : pyFalsy h = false) (hct : pyContains "content-type" h = .ok true)
    (hcl : pyContains "content-length" h = .ok true)
    (hsub : pySubscript h "content-length" = .ok (.num N))
    (hlen : (r.length : Int) < N) :
    readMessageContent ⟨r, some L, some h⟩ = .ok (⟨r, some L, some h⟩, none) := by
  have hge : pyGeNatJson r.length (.num N) = .ok false := by
    simp [pyGeNatJson, decide_eq_false_iff_not]; omega
  simp [readMessageContent, hF, hct, hcl, hsub, hge]

theorem rmc_consume {cb tail : List Nat} {L : Int} {h : Json} {m : PyMsg}
    (hF : pyFalsy h = false) (hct : pyContains "content-type" h = .ok true)
    (hcl : pyContains "content-length" h = .ok true)
    (hsub : pySubscript h "content-length" = .ok (.num (cb.length)))
    (hmap : mapMessageByType h cb = .ok m) :
    readMessageContent ⟨cb ++ tail, some L, some h⟩ = .ok (⟨tail, none, none⟩, some m) := by
  have hge : pyGeNatJson (cb.length + tail.length) (.num (cb.length : Int)) = .ok true := by
    simp only [pyGeNatJson, Except.ok.injEq, decide_eq_true_eq]
    push_cast; omega
  have htake : pySliceTo (cb ++ tail) (cb.length : Int) = cb := by
    rw [pySliceTo_coe]; exact List.take_left cb tail
  have hdrop : pySliceFrom (cb ++ tail) (cb.length : Int) = tail := by
    rw [pySliceFrom_coe]; exact List.drop_left cb tail
  simp [readMessageContent, hF, hct, hcl, hsub, hge, jsonToSliceIndex, htake, hdrop, hmap]

theorem rmc_absorb {cb tail : List Nat} {L : Int} {h : Json}
    (hF : pyFalsy h = false) (hct : pyContains "content-type" h = .ok true)
    (hcl : pyContains "content-length" h = .ok true)
    (hsub : pySubscript h "content-length" = .ok (.num (cb.length)))
    (hmap : mapMessageByType h cb = .error .jsonDecodeError) :
    readMessageContent ⟨cb ++ tail, some L, some h⟩ =
      .ok (⟨cb ++ tail, some L, some h⟩, none) := by
  have hge : pyGeNatJson (cb.length + tail.length) (.num (cb.length : Int)) = .ok true := by
    simp only [pyGeNatJson, Except.ok.injEq, decide_eq_true_eq]
    push_cast; omega
  have htake : pySliceTo (cb ++ tail) (cb.length : Int) = cb := by
    rw [pySliceTo_coe]; exact List.take_left cb tail
  simp [readMessageContent, hF, hct, hcl, hsub, hge, jsonToSliceIndex, htake, hmap]

theorem rmc_propagate {cb tail : List Nat} {L : Int} {h : Json} {e : PyErr}
    (hF : pyFalsy h = false) (hct : pyContains "content-type" h = .ok true)
    (hcl : pyContains "content-length" h = .ok true)
    (hsub : pySubscript h "content-length" = .ok (.num (cb.length)))
    (hmap : mapMessageByType h cb = .error e) (hne : e ≠ .jsonDecodeError) :
    readMessageContent ⟨cb ++ tail, some L, some h⟩ = .error e := by
  have hge : pyGeNatJson (cb.length + tail.length) (.num (cb.length : Int)) = .ok true := by
    simp only [pyGeNatJson, Except.ok.injEq, decide_eq_true_eq]
    push_cast; omega
  have htake : pySliceTo (cb ++ tail) (cb.length : Int) = cb := by
    rw [pySliceTo_coe]; exact List.take_left cb tail
  cases e <;> first
    | exact absurd rfl hne
    | simp [readMessageContent, hF, hct, hcl, hsub, hge, jsonToSliceIndex, htake, hmap]

theorem parseStep_full_frame {pb hb cb tail : List Nat} {h : Json} {m : PyMsg}
    (hp : pb.length = 4) (hpi : pyIntOfBytes pb = some (hb.length : Int)) (hhb : hb ≠ [])
    (hdec : decodeDict hb = .ok h) (hF : pyFalsy h = false)
    (hct : pyContains "content-type" h = .ok true)
    (hcl : pyContains "content-length" h = .ok true)
    (hsub : pySubscript h "content-length" = .ok (.num (cb.length)))
    (hmap : mapMessageByType h cb = .ok m) :
    parseStep ⟨pb ++ (hb ++ (cb ++ tail)), none, none⟩ = .ok (⟨tail, none, none⟩, some m) := by
  rw [parseStep_clean_eq hp hpi (length_coe_ne_zero hhb), parseStep_header_read hhb hdec]
  exact rmc_consume hF hct hcl hsub hmap

/-! ## Claim C4: two coalesced frames in one feed -/

/-- Claim C4: feeding the concatenation of two complete valid frames (and
    any trailing remainder on which one parse step makes no progress) in
    a single feed and then draining yields exactly the two messages in
    writing order, and the final buffer is exactly the untouched
    remainder with cleared transient state: precisely the bytes of the
    two frames were consumed. -/
theorem coalesced_frames_parse_in_order
    (pb1 hb1 cb1 pb2 hb2 cb2 rest : List Nat) (h1 h2 : Json) (m1 m2 : PyMsg)
    (hp1 : pb1.length = 4) (hpi1 : pyIntOfBytes pb1 = some (hb1.length : Int))
    (hhb1 : hb1 ≠ []) (hdec1 : decodeDict hb1 = .ok h1) (hF1 : pyFalsy h1 = false)
    (hct1 : pyContains "content-type" h1 = .ok true)
    (hcl1 : pyContains "content-length" h1 = .ok true)
    (hsub1 : pySubscript h1 "content-length" = .ok (.num (cb1.length)))
    (hmap1 : mapMessageByType h1 cb1 = .ok m1)
    (hp2 : pb2.length = 4) (hpi2 : pyIntOfBytes pb2 = some (hb2.length : Int))
    (hhb2 : hb2 ≠ []) (hdec2 : decodeDict hb2 = .ok h2) (hF2 : pyFalsy h2 = false)
    (hct2 : pyContains "content-type" h2 = .ok true)
    (hcl2 : pyContains "content-length" h2 = .ok true)
    (hsub2 : pySubscript h2 "content-length" = .ok (.num (cb2.length)))
    (hmap2 : mapMessageByType h2 cb2 = .ok m2)
    (hrest : parseStep ⟨rest, none, none⟩ = .ok (⟨rest, none, none⟩, none)) :
    parseMessages
        (receivedData initParser ((pb1 ++ hb1 ++ cb1) ++ (pb2 ++ hb2 ++ cb2) ++ rest)) =
      ([m1, m2], .ok ⟨rest, none, none⟩) := by
  have hne : ((pb1 ++ hb1 ++ cb1) ++ (pb2 ++ hb2 ++ cb2) ++ rest) ≠ [] := by
    intro hq
    have := congrArg List.length hq
    simp only [List.length_append, List.length_nil, hp1] at this
    omega
  have hfeed : receivedData initParser ((pb1 ++ hb1 ++ cb1) ++ (pb2 ++ hb2 ++ cb2) ++ rest) =
      ⟨(pb1 ++ hb1 ++ cb1) ++ (pb2 ++ hb2 ++ cb2) ++ rest, none, none⟩ := by
    simp [receivedData, initParser, List.isEmpty_iff, hne]
  have e1 : (pb1 ++ hb1 ++ cb1) ++ (pb2 ++ hb2 ++ cb2) ++ rest =
      pb1 ++ (hb1 ++ (cb1 ++ (pb2 ++ (hb2 ++ (cb2 ++ rest))))) := by
    simp [List.append_assoc]
  have step1 : parseStep ⟨(pb1 ++ hb1 ++ cb1) ++ (pb2 ++ hb2 ++ cb2) ++ rest, none, none⟩ =
      .ok (⟨pb2 ++ (hb2 ++ (cb2 ++ rest)), none, none⟩, some m1) := by
    rw [e1]
    exact parseStep_full_frame hp1 hpi1 hhb1 hdec1 hF1 hct1 hcl1 hsub1 hmap1
  have step2 : parseStep ⟨pb2 ++ (hb2 ++ (cb2 ++ rest)), none, none⟩ =
      .ok (⟨rest, none, none⟩, some m2) :=
    parseStep_full_frame hp2 hpi2 hhb2 hdec2 hF2 hct2 hcl2 hsub2 hmap2
  rw [hfeed]
  exact parseMessages_yield₂ hne step1 step2 hrest

/-- Witness for claim C4: a `text/plain` frame carrying `hi` followed
    back-to-back by a generic frame carrying one byte, with a stray `0`
    byte left in the buffer. -/
theorem coalesced_frames_parse_in_order_witness :
    parseMessages (receivedData initParser
        ((utf8Encode "0051" ++
            utf8Encode "\x7b\"content-type\": \"text/plain\", \"content-length\": 2\x7d" ++
            utf8Encode "hi") ++
          (utf8Encode "0042" ++
            utf8Encode "\x7b\"content-type\": \"x\", \"content-length\": 1\x7d" ++
            utf8Encode "a") ++
          [48])) =
      ([PyMsg.text (some "hi"), PyMsg.raw (Json.str "x") (some [97])],
        .ok ⟨[48], none, none⟩) :=
  coalesced_frames_parse_in_order
    (utf8Encode "0051")
    (utf8Encode "\x7b\"content-type\": \"text/plain\", \"content-length\": 2\x7d")
    (utf8Encode "hi")
    (utf8Encode "0042")
    (utf8Encode "\x7b\"content-type\": \"x\", \"content-length\": 1\x7d")
    (utf8Encode "a")
    [48]
    (Json.obj [("content-type", Json.str "text/plain"), ("content-length", Json.num 2)])
    (Json.obj [("content-type", Json.str "x"), ("content-length", Json.num 1)])
    (PyMsg.text (some "hi")) (PyMsg.raw (Json.str "x") (some [97]))
    rfl rfl (by decide) rfl rfl rfl rfl rfl rfl
    rfl rfl (by decide) rfl rfl rfl rfl rfl rfl
    rfl

/-! ## Claim C3: byte-at-a-time feeding -/

theorem feedByteDrains_append {xs ys : List Nat} {s s2 : ParserState}
    {ds : List (List PyMsg)} (h : feedByteDrains xs s = (ds, .ok s2)) :
    feedByteDrains (xs ++ ys) s =
      (ds ++ (feedByteDrains ys s2).1, (feedByteDrains ys s2).2) := by
  induction xs generalizing s ds with
  | nil =>
    simp only [feedByteDrains, Prod.mk.injEq] at h
    obtain ⟨rfl, h2⟩ := h
    obtain rfl : s = s2 := by injection h2
    simp
  | cons b bs ih =>
    cases hpm : parseMessages (receivedData s [b]) with
    | mk ms r =>
      cases r with
      | error e => simp [feedByteDrains, hpm] at h
      | ok s3 =>
        simp only [feedByteDrains, hpm, Prod.mk.injEq] at h
        obtain ⟨h1, h2⟩ := h
        have hbs : feedByteDrains bs s3 = ((feedByteDrains bs s3).1, .ok s2) := by
          rw [← h2]
        rw [List.cons_append]
        simp only [feedByteDrains, hpm]
        rw [ih hbs]
        simp [← h1]

theorem feedByteDrains_cons_ok {b : Nat} {bs : List Nat} {s s2 : ParserState}
    {ms : List PyMsg} (h : parseMessages (receivedData s [b]) = (ms, .ok s2)) :
    feedByteDrains (b :: bs) s =
      (ms :: (feedByteDrains bs s2).1, (feedByteDrains bs s2).2) := by
  simp [feedByteDrains, h]

theorem feed_phase_prefix {pb : List Nat} {L : Int} (hp : pb.length = 4)
    (hpi : pyIntOfBytes pb = some L) (hL : 0 < L) :
    feedByteDrains pb ⟨[], none, none⟩ =
      (List.replicate 4 [], .ok ⟨[], some L, none⟩) := by
  obtain ⟨a, b, c, d, rfl⟩ : ∃ a b c d, pb = [a, b, c, d] := by
    rcases pb with _ | ⟨a, _ | ⟨b, _ | ⟨c, _ | ⟨d, _ | ⟨e, t⟩⟩⟩⟩⟩
    · simp at hp
    · simp at hp
    · simp at hp
    · simp at hp
    · exact ⟨a, b, c, d, rfl⟩
    · simp only [List.length_cons] at hp; omega
  have step4 : parseStep ⟨[a, b, c, d], none, none⟩ = .ok (⟨[], some L, none⟩, none) := by
    have hq := @parseStep_clean_eq [a, b, c, d] [] L hp hpi (ne_of_gt hL)
    rw [List.append_nil] at hq
    rw [hq]
    exact parseStep_await_header (ne_of_gt hL) (by simpa using hL)
  have d1 : parseMessages ⟨[a], none, none⟩ = ([], .ok ⟨[a], none, none⟩) :=
    parseMessages_stall (by simp) (parseStep_stall_short (by simp))
  have d2 : parseMessages ⟨[a, b], none, none⟩ = ([], .ok ⟨[a, b], none, none⟩) :=
    parseMessages_stall (by simp) (parseStep_stall_short (by simp))
  have d3 : parseMessages ⟨[a, b, c], none, none⟩ = ([], .ok ⟨[a, b, c], none, none⟩) :=
    parseMessages_stall (by simp) (parseStep_stall_short (by simp))
  have d4 : parseMessages ⟨[a, b, c, d], none, none⟩ = ([], .ok ⟨[], some L, none⟩) :=
    parseMessages_stall (by simp) step4
  simp [feedByteDrains, receivedData, d1, d2, d3, d4, List.replicate]

theorem feed_phase_header {hb : List Nat} {h : Json} {N : Int} (hhb : hb ≠ [])
    (hdec : decodeDict hb = .ok h) (hF : pyFalsy h = false)
    (hct : pyContains "content-type" h = .ok true)
    (hcl : pyContains "content-length" h = .ok true)
    (hsub : pySubscript h "content-length" = .ok (.num N)) (hN : 0 < N) :
    ∀ suf pre, hb = pre ++ suf → suf ≠ [] →
      feedByteDrains suf ⟨pre, some (hb.length : Int), none⟩ =
        (List.replicate suf.length [], .ok ⟨[], some (hb.length : Int), some h⟩) := by
  intro suf
  induction suf with
  | nil => intro pre _ hq; exact absurd rfl hq
  | cons b bs ih =>
    intro pre heq _
    have hfeed : receivedData ⟨pre, some (hb.length : Int), none⟩ [b] =
        ⟨pre ++ [b], some (hb.length : Int), none⟩ := by simp [receivedData]
    cases bs with
    | nil =>
      have hfull : pre ++ [b] = hb := by rw [heq]
      have hstep : parseStep ⟨hb, some (hb.length : Int), none⟩ =
          .ok (⟨[], some (hb.length : Int), some h⟩, none) := by
        have h1 := parseStep_header_read (r := []) hhb hdec
        rw [List.append_nil] at h1
        rw [h1]
        exact rmc_await hF hct hcl hsub (by simpa using hN)
      have hd : parseMessages ⟨pre ++ [b], some (hb.length : Int), none⟩ =
          ([], .ok ⟨[], some (hb.length : Int), some h⟩) := by
        rw [hfull]
        exact parseMessages_stall hhb hstep
      simp [feedByteDrains, hfeed, hd]
    | cons b2 bs2 =>
      have hlen : ((pre ++ [b]).length : Int) < (hb.length : Int) := by
        have hq : hb.length = pre.length + (b :: b2 :: bs2).length := by rw [heq]; simp
        simp only [List.length_append, List.length_cons, List.length_nil] at hq ⊢
        push_cast
        omega
      have hstep := parseStep_await_header (length_coe_ne_zero hhb) hlen
      have hd : parseMessages ⟨pre ++ [b], some (hb.length : Int), none⟩ =
          ([], .ok ⟨pre ++ [b], some (hb.length : Int), none⟩) :=
        parseMessages_stall (by simp) hstep
      have hrec := ih (pre ++ [b]) (by rw [heq]; simp) (by simp)
      rw [feedByteDrains_cons_ok (by rw [hfeed]; exact hd), hrec]
      simp [List.replicate_succ]

theorem feed_phase_content {cb : List Nat} {h : Json} {m : PyMsg} {L : Int}
    (hL : L ≠ 0) (hF : pyFalsy h = false)
    (hct : pyContains "content-type" h = .ok true)
    (hcl : pyContains "content-length" h = .ok true)
    (hsub : pySubscript h "content-length" = .ok (.num (cb.length)))
    (hmap : mapMessageByType h cb = .ok m) :
    ∀ suf pre, cb = pre ++ suf → suf ≠ [] →
      feedByteDrains suf ⟨pre, some L, some h⟩ =
        (List.replicate (suf.length - 1) [] ++ [[m]], .ok ⟨[], none, none⟩) := by
  intro suf
  induction suf with
  | nil => intro pre _ hq; exact absurd rfl hq
  | cons b bs ih =>
    intro pre heq _
    have hfeed : receivedData ⟨pre, some L, some h⟩ [b] =
        ⟨pre ++ [b], some L, some h⟩ := by simp [receivedData]
    cases bs with
    | nil =>
      have hfull : pre ++ [b] = cb := by rw [heq]
      have hcb : cb ≠ [] := by rw [← hfull]; simp
      have step1 : parseStep ⟨cb, some L, some h⟩ = .ok (⟨[], none, none⟩, some m) := by
        rw [parseStep_have_header hL hF]
        have hq := @rmc_consume cb [] L h m hF hct hcl hsub hmap
        rw [List.append_nil] at hq
        exact hq
      have step2 : parseStep ⟨[], none, none⟩ = .ok (⟨[], none, none⟩, none) :=
        parseStep_stall_short (by simp)
      have hd : parseMessages ⟨pre ++ [b], some L, some h⟩ =
          ([m], .ok ⟨[], none, none⟩) := by
        rw [hfull]
        exact parseMessages_yield₁ hcb step1 step2
      simp [feedByteDrains, hfeed, hd]
    | cons b2 bs2 =>
      have hlen : ((pre ++ [b]).length : Int) < (cb.length : Int) := by
        have hq : cb.length = pre.length + (b :: b2 :: bs2).length := by rw [heq]; simp
        simp only [List.length_append, List.length_cons, List.length_nil] at hq ⊢
        push_cast
        omega
      have hstep : parseStep ⟨pre ++ [b], some L, some h⟩ =
          .ok (⟨pre ++ [b], some L, some h⟩, none) := by
        rw [parseStep_have_header hL hF]
        exact rmc_await hF hct hcl hsub hlen
      have hd : parseMessages ⟨pre ++ [b], some L, some h⟩ =
          ([], .ok ⟨pre ++ [b], some L, some h⟩) :=
        parseMessages_stall (by simp) hstep
      have hrec := ih (pre ++ [b]) (by rw [heq]; simp) (by simp)
      rw [feedByteDrains_cons_ok (by rw [hfeed]; exact hd), hrec]
      simp [List.replicate_succ]

/-- Claim C3: for a valid frame (four prefix bytes parsing to the header
    length, header bytes decoding to a truthy header with both required
    keys, `content-length` equal to the non-empty content's length, and a
    content mapping to a message), feeding the frame one byte at a time
    with a drain attempt after each feed yields no message on any drain
    before the final byte, exactly one message on the drain after the
    final byte, and leaves a fresh parser state. -/
theorem frame_bytewise_single_message
    (pb hb cb : List Nat) (h : Json) (m : PyMsg)
    (hp : pb.length = 4) (hpi : pyIntOfBytes pb = some (hb.length : Int))
    (hhb : hb ≠ []) (hdec : decodeDict hb = .ok h) (hF : pyFalsy h = false)
    (hct : pyContains "content-type" h = .ok true)
    (hcl : pyContains "content-length" h = .ok true)
    (hsub : pySubscript h "content-length" = .ok (.num (cb.length)))
    (hcb : cb ≠ []) (hmap : mapMessageByType h cb = .ok m) :
    feedByteDrains (pb ++ hb ++ cb) initParser =
      (List.replicate ((pb ++ hb ++ cb).length - 1) [] ++ [[m]], .ok initParser) := by
  have hN : (0 : Int) < (cb.length : Int) := by
    have : cb.length ≠ 0 := fun hq => hcb (List.length_eq_zero.mp hq)
    omega
  have phaseA := feed_phase_prefix hp hpi (by
    have : hb.length ≠ 0 := fun hq => hhb (List.length_eq_zero.mp hq)
    omega)
  have phaseB := feed_phase_header hhb hdec hF hct hcl hsub hN hb [] rfl hhb
  have phaseC := feed_phase_content (length_coe_ne_zero hhb) hF hct hcl hsub hmap cb []
    rfl hcb
  rw [List.append_assoc]
  rw [feedByteDrains_append (show feedByteDrains pb initParser = _ from phaseA)]
  rw [feedByteDrains_append phaseB]
  rw [phaseC]
  have h1 : cb.length ≠ 0 := fun hq => hcb (List.length_eq_zero.mp hq)
  simp [List.append_assoc, initParser]
  show List.replicate 4 ([] : List PyMsg) ++
      (List.replicate hb.length [] ++ (List.replicate (cb.length - 1) [] ++ [[m]])) =
    List.replicate (pb.length + (hb.length + cb.length) - 1) [] ++ [[m]]
  rw [show pb.length + (hb.length + cb.length) - 1 = 4 + hb.length + (cb.length - 1) from by
    rw [hp]; omega]
  rw [List.replicate_add, List.replicate_add]
  simp [List.append_assoc]
  rw [List.replicate_add, List.append_assoc]

/-- Witness for claim C3: a 47-byte generic frame fed one byte at a time
    yields 46 empty drains and then exactly one message. -/
theorem frame_bytewise_single_message_witness :
    feedByteDrains
        (utf8Encode "0042" ++
          utf8Encode "\x7b\"content-type\": \"x\", \"content-length\": 1\x7d" ++
          utf8Encode "a") initParser =
      (List.replicate 46 [] ++ [[PyMsg.raw (Json.str "x") (some [97])]], .ok initParser) :=
  frame_bytewise_single_message
    (utf8Encode "0042")
    (utf8Encode "\x7b\"content-type\": \"x\", \"content-length\": 1\x7d")
    (utf8Encode "a")
    (Json.obj [("content-type", Json.str "x"), ("content-length", Json.num 1)])
    (PyMsg.raw (Json.str "x") (some [97]))
    rfl rfl (by decide) rfl rfl rfl rfl rfl (by decide) rfl

/-! ## Claim C7: decode failures in header and payload -/

/-- Claim C7 (counterexample): a frame whose `application/json` payload is
    malformed JSON does not make the drain raise: the drain returns
    normally with no message, silently absorbing the `JSONDecodeError`
    and leaving the content bytes and transient header state in place. -/
theorem bad_json_payload_not_raised :
    parseMessages ⟨utf8Encode "0057" ++
        utf8Encode "\x7b\"content-type\": \"application/json\", \"content-length\": 1\x7d" ++
        utf8Encode "x", none, none⟩ =
      ([], .ok ⟨utf8Encode "x", some 57,
        some (Json.obj [("content-type", Json.str "application/json"),
          ("content-length", Json.num 1)])⟩) ∧
    ∀ e : PyErr,
      (([], .ok ⟨utf8Encode "x", some 57,
          some (Json.obj [("content-type", Json.str "application/json"),
            ("content-length", Json.num 1)])⟩) :
        List PyMsg × Except PyErr ParserState) ≠ ([], .error e) := by
  refine ⟨rfl, fun e h => ?_⟩
  injection h with h1 h2
  exact Except.noConfusion h2

/-- Claim C7 (amended): a header whose bytes fail to decode (malformed
    UTF-8 or malformed JSON) makes the drain raise (a `TypeError`, through
    the broken `except json.JSONDecoder` clause); a payload whose mapping
    raises anything other than `JSONDecodeError` (in particular malformed
    UTF-8) propagates that exception out of the drain; but a payload whose
    mapping raises `JSONDecodeError` (malformed JSON under
    `application/json`) is silently absorbed: the drain yields no message,
    raises nothing, and leaves the content bytes and header state in
    place, stalling. -/
theorem decode_failure_behaviour :
    (∀ (pb hb rest : List Nat) (e : PyErr),
      pb.length = 4 → pyIntOfBytes pb = some (hb.length : Int) → hb ≠ [] →
      decodeDict hb = .error e →
      parseMessages ⟨pb ++ (hb ++ rest), none, none⟩ = ([], .error .typeError)) ∧
    (∀ (pb hb cb rest : List Nat) (h : Json) (e : PyErr),
      pb.length = 4 → pyIntOfBytes pb = some (hb.length : Int) → hb ≠ [] →
      decodeDict hb = .ok h → pyFalsy h = false →
      pyContains "content-type" h = .ok true →
      pyContains "content-length" h = .ok true →
      pySubscript h "content-length" = .ok (.num (cb.length)) →
      mapMessageByType h cb = .error e → e ≠ .jsonDecodeError →
      parseMessages ⟨pb ++ (hb ++ (cb ++ rest)), none, none⟩ = ([], .error e)) ∧
    (∀ (pb hb cb rest : List Nat) (h : Json),
      pb.length = 4 → pyIntOfBytes pb = some (hb.length : Int) → hb ≠ [] →
      decodeDict hb = .ok h → pyFalsy h = false →
      pyContains "content-type" h = .ok true →
      pyContains "content-length" h = .ok true →
      pySubscript h "content-length" = .ok (.num (cb.length)) →
      mapMessageByType h cb = .error .jsonDecodeError →
      parseMessages ⟨pb ++ (hb ++ (cb ++ rest)), none, none⟩ =
        ([], .ok ⟨cb ++ rest, some (hb.length : Int), some h⟩)) := by
  refine ⟨?_, ?_, ?_⟩
  · intro pb hb rest e hp hpi hhb hdec
    have hne : pb ++ (hb ++ rest) ≠ [] := by
      intro hq
      have := congrArg List.length hq
      simp only [List.length_append, List.length_nil, hp] at this
      omega
    have hstep : parseStep ⟨pb ++ (hb ++ rest), none, none⟩ = .error .typeError := by
      rw [parseStep_clean_eq hp hpi (length_coe_ne_zero hhb)]
      exact parseStep_header_err hhb hdec
    exact parseMessages_err hne hstep
  · intro pb hb cb rest h e hp hpi hhb hdec hF hct hcl hsub hmap hnj
    have hne : pb ++ (hb ++ (cb ++ rest)) ≠ [] := by
      intro hq
      have := congrArg List.length hq
      simp only [List.length_append, List.length_nil, hp] at this
      omega
    have hstep : parseStep ⟨pb ++ (hb ++ (cb ++ rest)), none, none⟩ = .error e := by
      rw [parseStep_clean_eq hp hpi (length_coe_ne_zero hhb),
        parseStep_header_read hhb hdec]
      exact rmc_propagate hF hct hcl hsub hmap hnj
    exact parseMessages_err hne hstep
  · intro pb hb cb rest h hp hpi hhb hdec hF hct hcl hsub hmap
    have hne : pb ++ (hb ++ (cb ++ rest)) ≠ [] := by
      intro hq
      have := congrArg List.length hq
      simp only [List.length_append, List.length_nil, hp] at this
      omega
    have hstep : parseStep ⟨pb ++ (hb ++ (cb ++ rest)), none, none⟩ =
        .ok (⟨cb ++ rest, some (hb.length : Int), some h⟩, none) := by
      rw [parseStep_clean_eq hp hpi (length_coe_ne_zero hhb),
        parseStep_header_read hhb hdec]
      exact rmc_absorb hF hct hcl hsub hmap
    exact parseMessages_stall hne hstep

/-- Witness for the amended claim C7: a malformed-JSON header raises, a
    malformed-UTF-8 `text/plain` payload raises `UnicodeDecodeError`, and
    a malformed-JSON `application/json` payload is absorbed. -/
theorem decode_failure_behaviour_witness :
    parseMessages ⟨utf8Encode "0002" ++ (utf8Encode "\x7bx" ++ [65]), none, none⟩ =
      ([], .error .typeError) ∧
    parseMessages ⟨utf8Encode "0051" ++
        (utf8Encode "\x7b\"content-type\": \"text/plain\", \"content-length\": 1\x7d" ++
          ([255] ++ [])), none, none⟩ =
      ([], .error .unicodeDecodeError) ∧
    parseMessages ⟨utf8Encode "0057" ++
        (utf8Encode "\x7b\"content-type\": \"application/json\", \"content-length\": 1\x7d" ++
          (utf8Encode "x" ++ [])), none, none⟩ =
      ([], .ok ⟨utf8Encode "x" ++ [], some 57,
        some (Json.obj [("content-type", Json.str "application/json"),
          ("content-length", Json.num 1)])⟩) :=
  ⟨decode_failure_behaviour.1 (utf8Encode "0002") (utf8Encode "\x7bx") [65]
      .jsonDecodeError rfl rfl (by decide) rfl,
   decode_failure_behaviour.2.1 (utf8Encode "0051")
      (utf8Encode "\x7b\"content-type\": \"text/plain\", \"content-length\": 1\x7d")
      [255] [] (Json.obj [("content-type", Json.str "text/plain"),
        ("content-length", Json.num 1)]) .unicodeDecodeError
      rfl rfl (by decide) rfl rfl rfl rfl rfl rfl (fun hq => PyErr.noConfusion hq),
   decode_failure_behaviour.2.2 (utf8Encode "0057")
      (utf8Encode "\x7b\"content-type\": \"application/json\", \"content-length\": 1\x7d")
      (utf8Encode "x") [] (Json.obj [("content-type", Json.str "application/json"),
        ("content-length", Json.num 1)])
      rfl rfl (by decide) rfl rfl rfl rfl rfl rfl⟩

theorem encodeMsg_none_of_payload {m : PyMsg}
    (h : encodedMessage m = none ∨ encodedMessage m = some []) :
    encodeMsg m = none := by
  rcases h with h | h <;> rcases hE : encodeHeaderLength m with _ | pfx <;>
    simp [encodeMsg, hE, h]

/-- Claim C9: a message whose payload is empty or absent (length 0)
    encodes to "not ready" (no frame); and every frame `encode` does emit
    decomposes as prefix, header and a non-empty payload, so no frame
    with a zero-length payload is ever emitted. -/
theorem empty_payload_never_encodes :
    (∀ m : PyMsg, payloadEmptyOrAbsent m = true → encodeMsg m = none) ∧
    (∀ (m : PyMsg) (f : List Nat), encodeMsg m = some f →
      ∃ pfx p, encodeHeaderLength m = some pfx ∧ encodedMessage m = some p ∧
        p ≠ [] ∧ f = pfx ++ encodedHeader m ++ p) := by
  constructor
  · intro m hm
    apply encodeMsg_none_of_payload
    cases m with
    | raw ct c =>
      cases c with
      | none => exact .inl rfl
      | some l =>
        have hl : l = [] := List.isEmpty_iff.mp (by simpa [payloadEmptyOrAbsent] using hm)
        exact .inr (by simp [encodedMessage, hl])
    | text t =>
      cases t with
      | none => exact .inl rfl
      | some s =>
        have hs : s = "" := by simpa [payloadEmptyOrAbsent] using hm
        exact .inl (by simp [encodedMessage, encodeText, hs])
    | close => simp [payloadEmptyOrAbsent] at hm
    | json v =>
      cases v with
      | none => exact .inl rfl
      | some j =>
        left
        cases j with
        | null => simp [encodedMessage, encodeDictPy, pyFalsy]
        | bool b => simp [payloadEmptyOrAbsent] at hm
        | num n => simp [payloadEmptyOrAbsent] at hm
        | str s =>
          have hs : s = "" := by simpa [payloadEmptyOrAbsent] using hm
          simp [encodedMessage, encodeDictPy, pyFalsy, hs]
        | arr l =>
          have hl : l.isEmpty = true := by simpa [payloadEmptyOrAbsent] using hm
          simp [encodedMessage, encodeDictPy, pyFalsy, hl]
        | obj l =>
          have hl : l.isEmpty = true := by simpa [payloadEmptyOrAbsent] using hm
          simp [encodedMessage, encodeDictPy, pyFalsy, hl]
    | event n em => simp [payloadEmptyOrAbsent] at hm
  · intro m f h
    rcases hE : encodeHeaderLength m with _ | pfx
    · simp [encodeMsg, hE] at h
    · rcases hM : encodedMessage m with _ | p
      · simp [encodeMsg, hE, hM] at h
      · refine ⟨pfx, p, rfl, rfl, ?_, ?_⟩
        · simp only [encodeMsg, hE, hM] at h
          intro hp
          rw [if_pos (Or.inr (Or.inr (by simp [hp])))] at h
          exact Option.noConfusion h
        · simp only [encodeMsg, hE, hM] at h
          by_cases hc : (pfx.isEmpty ∨ (encodedHeader m).isEmpty ∨ p.isEmpty : Prop)
          · rw [if_pos hc] at h; exact Option.noConfusion h
          · rw [if_neg hc] at h; exact (Option.some.inj h).symm

/-- Witness for claim C9: the empty-string `TextMessage` does not encode,
    and the frame encoded from `TextMessage('hi')` decomposes with a
    non-empty payload. -/
theorem empty_payload_never_encodes_witness :
    (payloadEmptyOrAbsent (PyMsg.text (some "")) = true ∧
      encodeMsg (PyMsg.text (some "")) = none) ∧
    (∃ pfx p, encodeHeaderLength (PyMsg.text (some "hi")) = some pfx ∧
      encodedMessage (PyMsg.text (some "hi")) = some p ∧ p ≠ [] ∧
      (encodeMsg (PyMsg.text (some "hi"))).getD [] =
        pfx ++ encodedHeader (PyMsg.text (some "hi")) ++ p) :=
  ⟨⟨rfl, empty_payload_never_encodes.1 (PyMsg.text (some "")) rfl⟩,
   empty_payload_never_encodes.2 (PyMsg.text (some "hi"))
     ((encodeMsg (PyMsg.text (some "hi"))).getD []) rfl⟩

/-! ## Claim C6: a CloseMessage handler result -/

/-- Claim C6 (counterexample): a handler returning `CloseMessage()` makes
    the connection handler call `close()` in its default non-terminate
    mode, which sends a (non-empty) courtesy CloseMessage frame on the
    socket before closing — the claim asserts nothing else is sent and no
    courtesy CloseMessage goes out in this branch. -/
theorem close_result_sends_courtesy_close :
    handleReceivedMessage (.single (.msg .close)) = .ok ⟨[courtesyCloseFrame], true⟩ ∧
    courtesyCloseFrame ≠ [] :=
  ⟨rfl, by decide⟩

/-- Claim C6 (amended): when a handler value is a `CloseMessage`, the
    handler loop stops before any later value, closes the connection, and
    the only frame written in this branch is the courtesy CloseMessage
    sent by `close()` itself. -/
theorem close_result_stops_and_closes (v : RVal) (rest : List RVal)
    (hv : rvalIsClose v = true) :
    processGen (v :: rest) = .ok ⟨[courtesyCloseFrame], true⟩ ∧
    handleReceivedMessage (.single v) = .ok ⟨[courtesyCloseFrame], true⟩ := by
  have hvc : v = .msg .close := by
    cases v with
    | msg m => cases m <;> simp_all [rvalIsClose]
    | val j => simp [rvalIsClose] at hv
  subst hvc
  exact ⟨rfl, rfl⟩

/-- Witness for the amended claim C6 at a concrete handler result list. -/
theorem close_result_stops_and_closes_witness :
    processGen (RVal.msg PyMsg.close :: [RVal.val (Json.num 5)]) =
      .ok ⟨[courtesyCloseFrame], true⟩ ∧
    handleReceivedMessage (.single (RVal.msg PyMsg.close)) =
      .ok ⟨[courtesyCloseFrame], true⟩ :=
  close_result_stops_and_closes (RVal.msg PyMsg.close) [RVal.val (Json.num 5)] rfl

/-! ## Claim C5: dispatch precedence -/

theorem lookupEvent_any (d : List (Json × Nat)) (k : Json) :
    d.any (fun p => jsonKeyEq p.1 k) = (lookupEventHandler d k).isSome := by
  induction d with
  | nil => rfl
  | cons p rest ih =>
    by_cases h : jsonKeyEq p.1 k <;> simp [lookupEventHandler, h, ih]

/-- Claim C5 (amended): for a drained `EventMessage` with a hashable
    event name, dispatch invokes the registered event handler for that
    name even when a generic JSON handler is registered, and falls
    through to the registered JSON handler when no event handler
    matches. -/
theorem event_dispatch_precedence (hs : Handlers) (n em : Json)
    (hhash : pyHashable n = true) :
    (∀ hid, lookupEventHandler hs.eventH n = some hid →
      dispatch hs (.event n em) = .ok (.invoke hid)) ∧
    (lookupEventHandler hs.eventH n = none → ∀ j, hs.jsonH = some j →
      dispatch hs (.event n em) = .ok (.invoke j)) := by
  constructor
  · intro hid hl
    have hc : pyEventDictContains hs.eventH n = .ok true := by
      simp [pyEventDictContains, hhash, lookupEvent_any, hl]
    simp [dispatch, isCloseInstance, isEventInstance, eventNameOf, hc, hl]
  · intro hl j hj
    have hc : pyEventDictContains hs.eventH n = .ok false := by
      simp [pyEventDictContains, hhash, lookupEvent_any, hl]
    simp [dispatch, isCloseInstance, isEventInstance, eventNameOf, hc,
      isTextInstance, isJsonInstance, hj]

/-- Claim C5 (counterexample): a drained `EventMessage` whose event name
    is a JSON array has no registered event handler, yet with a JSON
    handler registered the dispatch raises `TypeError` from the
    unhashable dict-membership test instead of invoking the JSON
    handler. -/
theorem unhashable_event_name_skips_json_handler :
    dispatch ⟨none, some 7, []⟩ (.event (Json.arr []) (Json.num 1)) =
      .error .typeError ∧
    (Except.error .typeError : Except PyErr DispatchAction) ≠ .ok (.invoke 7) :=
  ⟨rfl, fun h => Except.noConfusion h⟩

/-- Witness for the amended claim C5 at a concrete registry. -/
theorem event_dispatch_precedence_witness :
    dispatch ⟨none, some 7, [(Json.str "ping", 3)]⟩
      (.event (Json.str "ping") (Json.num 1)) = .ok (.invoke 3) ∧
    dispatch ⟨none, some 7, [(Json.str "ping", 3)]⟩
      (.event (Json.str "pong") (Json.num 1)) = .ok (.invoke 7) :=
  ⟨(event_dispatch_precedence ⟨none, some 7, [(Json.str "ping", 3)]⟩ (Json.str "ping")
      (Json.num 1) rfl).1 3 rfl,
   (event_dispatch_precedence ⟨none, some 7, [(Json.str "ping", 3)]⟩ (Json.str "pong")
      (Json.num 1) rfl).2 rfl 7 rfl⟩

end SocketServer
